import Mathlib

/-!
Verification of the node-batcher accumulation/flush engine (src/index.ts).

The TypeScript source is shallowly embedded: promises are modelled by their
settled results, mutable item state by explicit records and snapshot
functions, and the event loop's single-threaded interleaving by explicit
state-transition functions.
-/

namespace NodeBatcher

/-- Public item shape handed to the flush handler (source type `Item<T>`). -/
structure Item (T : Type) where
  id : String
  data : T
  delta_ms : Int
deriving Repr, DecidableEq

/-- Internal item record (source type `_Item<T, R>`): the public fields plus the
arrival timestamp `at` (called `arrivedAt` here, `at` being reserved) and the
`cancelled` flag.  The `resolve`/`reject`
callbacks are modelled by the `Settlement` output of `flush`. -/
structure _Item (T : Type) where
  id : String
  data : T
  delta_ms : Int
  arrivedAt : Int
  cancelled : Bool
deriving Repr, DecidableEq

/-- One-time settlement of an item's promise: `resolved v` models
`resolve(value)` where `none` is JavaScript `null`, and `rejected e` models
`reject(e)`. -/
inductive Settlement (R E : Type) where
  | resolved : Option R → Settlement R E
  | rejected : E → Settlement R E
deriving Repr, DecidableEq

/-- The settled result of awaiting the handler promise
(`OnFlushFn<T, R>` in the source): rejection with an error `E`, fulfilment
with `void` (`Except.ok none`), or fulfilment with an array of id/data
entries (`Except.ok (some entries)`). -/
abbrev OnFlushFn (T R E : Type) := List (Item T) → Except E (Option (List (String × R)))

/-- `new Map(entries).get(id)` for a `Map` built from an entry list: the value
of the last entry whose key is `id`, if any (later entries overwrite earlier
ones in a JavaScript `Map`). -/
def mapGet {R : Type} (entries : List (String × R)) (id : String) : Option R :=
  entries.reverse.lookup id

/-- Decidable equality for settled promise results, used to evaluate the model
on concrete inputs. -/
instance {E A : Type} [DecidableEq E] [DecidableEq A] : DecidableEq (Except E A) := fun
  | .ok a, .ok b =>
      if h : a = b then .isTrue (by rw [h]) else .isFalse (by intro hc; cases hc; exact h rfl)
  | .error a, .error b =>
      if h : a = b then .isTrue (by rw [h]) else .isFalse (by intro hc; cases hc; exact h rfl)
  | .ok _, .error _ => .isFalse (by intro hc; cases hc)
  | .error _, .ok _ => .isFalse (by intro hc; cases hc)

/-- Everything observable about one call of `async function flush`
(src/index.ts lines 53-88): the argument the handler was invoked with (`none`
when the handler was not invoked), the settlements performed on the items, and
the value the returned promise settles with. -/
structure FlushResult (T R E : Type) where
  handlerArg : Option (List (Item T))
  settlements : List (_Item T × Settlement R E)
  outcome : Except E (List (String × R))
deriving Repr, DecidableEq

/-- Model of `async function flush(onFlush, dataArray)` (src/index.ts lines
53-88).  `now` is `Date.now()` when the handler argument is built;
`cancelledAtSettle i` is the value of item `i`'s mutable `cancelled` field at
the time the settlement loop after `await onFlush(...)` runs (the flag is
monotone: once set by `cancel` it is never cleared, so an item whose
`cancelled` snapshot at flush start is `true` is also cancelled at settle
time). -/
def flush {T R E : Type} (onFlush : OnFlushFn T R E) (now : Int)
    (dataArray : List (_Item T)) (cancelledAtSettle : _Item T → Bool) :
    FlushResult T R E :=
  let fdata := dataArray.filter (fun i => i.cancelled == false)
  if fdata.length = 0 then
    { handlerArg := none, settlements := [], outcome := .ok [] }
  else
    let currentDataArray : List (Item T) :=
      fdata.map (fun d => { data := d.data, delta_ms := now - d.arrivedAt, id := d.id })
    match onFlush currentDataArray with
    | .error e =>
        { handlerArg := some currentDataArray
          settlements := fdata.filterMap (fun i =>
            if cancelledAtSettle i then none else some (i, .rejected e))
          outcome := .error e }
    | .ok (some result) =>
        { handlerArg := some currentDataArray
          settlements := fdata.filterMap (fun i =>
            if cancelledAtSettle i then none
            else some (i, .resolved (mapGet result i.id)))
          outcome := .ok result }
    | .ok none =>
        { handlerArg := some currentDataArray
          settlements := fdata.filterMap (fun i =>
            if cancelledAtSettle i then none else some (i, .resolved none))
          outcome := .ok [] }

/-- State of a `FlushBatch` object (src/index.ts lines 96-129).  `timerActive`
models `_timeout` holding a live (uncleared, unfired) timeout; `resolveStored`
models `_resolve` being non-null; `dwellResolved` models the inner dwell
promise having resolved, which is what fires the `.then(flushPromise)` handler
invocation; `immediate` records the `timeToFlush <= 0` constructor path, where
`flushPromise()` is invoked synchronously with no timer and no stored
resolver. -/
structure FlushBatchState where
  isSettled : Bool
  timerActive : Bool
  resolveStored : Bool
  dwellResolved : Bool
  immediate : Bool
deriving Repr, DecidableEq

/-- The `FlushBatch` constructor (lines 103-111): with a positive
`timeToFlush` it stores a resolver and arms a timer for the dwell promise;
otherwise it calls `flushPromise()` at once. -/
def mkFlushBatch (timeToFlush : Int) : FlushBatchState :=
  if timeToFlush > 0 then
    { isSettled := false, timerActive := true, resolveStored := true
      dwellResolved := false, immediate := false }
  else
    { isSettled := false, timerActive := false, resolveStored := false
      dwellResolved := false, immediate := true }

/-- Whether the `flushPromise` thunk of a unit has been (or is triggered to
be) invoked: either it ran synchronously at construction, or the dwell promise
resolved and its `.then` fires it. -/
def handlerInvoked (s : FlushBatchState) : Bool := s.immediate || s.dwellResolved

/-- `FlushBatch.settle` (lines 113-128): a no-op once `_isSettled` is set;
otherwise it marks the unit settled, clears the timer if one is live, and
calls the stored resolver if there is one (resolving the dwell promise). -/
def settleFB (s : FlushBatchState) : FlushBatchState :=
  if s.isSettled then s
  else
    { s with isSettled := true
             timerActive := false
             dwellResolved := s.dwellResolved || s.resolveStored }

/-- The dwell timer firing naturally: `setTimeout(this._resolve.bind(this),
timeToFlush)` (line 108) resolves the dwell promise. -/
def timerFire (s : FlushBatchState) : FlushBatchState :=
  if s.timerActive then { s with timerActive := false, dwellResolved := true } else s

/-- The `timeToFlush` computation in `_flush` (lines 150-151):
`Math.max((minTimeInMs ?? 0) - timePending, 0)` where
`timePending = Date.now() - itemsToFlush[0].at`. -/
def timeToFlushOf (minTimeInMs : Option Int) (now firstArrival : Int) : Int :=
  max ((minTimeInMs.getD 0) - (now - firstArrival)) 0

/-- Absolute time at which a `FlushBatch` created at `closeTime` with dwell
`timeToFlush` invokes its `flushPromise` thunk, absent any `settle()`
fast-forward: at construction when `timeToFlush <= 0`, else when the
`setTimeout(_, timeToFlush)` timer fires. -/
def handlerInvokeTime (closeTime timeToFlush : Int) : Int :=
  if timeToFlush > 0 then closeTime + timeToFlush else closeTime

/-- One entry of the `pendingFlushes` registry.  `uid` models the JavaScript
object identity of the `FlushBatch` (the `Set` is keyed by identity); `items`
is the `itemsToFlush` snapshot the unit owns; `timeToFlush` its computed
dwell. -/
structure FlushUnit (T : Type) where
  uid : Nat
  items : List (_Item T)
  timeToFlush : Int
deriving Repr, DecidableEq

/-- The mutable closure state of one batcher instance (lines 135-139): the
open group `_dataArray`, the max-wait timer (`some t` models a
`setTimeout(_flush, maxTimeInMs)` scheduled to fire at absolute time `t`,
`none` a cleared or absent timer), the `pendingFlushes` registry in creation
order, and a counter providing fresh object identities for created units. -/
structure BatcherState (T : Type) where
  _dataArray : List (_Item T)
  batchTimeout : Option Int
  pendingFlushes : List (FlushUnit T)
  unitsCreated : Nat
deriving Repr, DecidableEq

/-- State of a freshly created batcher. -/
def initialState (T : Type) : BatcherState T :=
  { _dataArray := [], batchTimeout := none, pendingFlushes := [], unitsCreated := 0 }

/-- Model of `_flush()` (lines 141-166) as a state transition: when the open
group is empty nothing happens (the source returns `Promise.resolve([])`
without creating a unit); otherwise the group is moved into a fresh
`FlushBatch` whose dwell is computed from the first item's arrival time, and
the unit is added to `pendingFlushes` immediately upon creation.  The later
removal - the `.finally` cleanup - is `completeFlushUnit`. -/
def _flushStep {T : Type} (minTimeInMs : Option Int) (now : Int)
    (st : BatcherState T) : BatcherState T :=
  match st._dataArray with
  | [] => st
  | first :: rest =>
      let timePending := now - first.arrivedAt
      let timeToFlush := max ((minTimeInMs.getD 0) - timePending) 0
      let u : FlushUnit T :=
        { uid := st.unitsCreated, items := first :: rest, timeToFlush := timeToFlush }
      { st with _dataArray := []
                pendingFlushes := st.pendingFlushes ++ [u]
                unitsCreated := st.unitsCreated + 1 }

/-- The `const item = { data, delta_ms: 0, at: Date.now(), id: genUuid(data),
..., cancelled: false }` construction (line 177). -/
def mkPendingItem {T : Type} (now : Int) (id : String) (data : T) : _Item T :=
  { id := id, data := data, delta_ms := 0, arrivedAt := now, cancelled := false }

/-- Model of `addAndWait(data)` (lines 174-201) as a state transition.  `now`
is `Date.now()` at the call and `id` the string produced by the id generator.
The item is pushed onto the open group; if the group has reached `maxSize`,
the max-wait timer is cleared and the group is flushed within the same call;
if the pushed item is (still) the only item of the open group, a max-wait
timer for `maxTimeInMs` is armed.  The returned promise / cancel-handle pair
is modelled separately (`ItemState`, `cancel`). -/
def addAndWait {T : Type} (maxSize : Nat) (maxTimeInMs : Int)
    (minTimeInMs : Option Int) (st : BatcherState T) (now : Int) (id : String)
    (data : T) : BatcherState T :=
  let item := mkPendingItem now id data
  let st1 := { st with _dataArray := st._dataArray ++ [item] }
  let st2 :=
    if st1._dataArray.length ≥ maxSize then
      _flushStep minTimeInMs now { st1 with batchTimeout := none }
    else st1
  if st2._dataArray.length = 1 then
    { st2 with batchTimeout := some (now + maxTimeInMs) }
  else st2

/-- The caller-visible promise of one item together with the `cancelled` flag
shared with the batch entry: `settled` is the one-time settlement of the
promise. -/
structure ItemState (R E : Type) where
  cancelled : Bool
  settled : Option (Settlement R E)
deriving Repr, DecidableEq

/-- A call of the promise's `resolve` callback: single assignment, a no-op on
an already settled promise. -/
def resolveItem {R E : Type} (s : ItemState R E) (v : Option R) : ItemState R E :=
  if s.settled.isSome then s else { s with settled := some (.resolved v) }

/-- The `cancel` handle (lines 178-184): a no-op when `cancelled` is already
set; otherwise it sets the flag and resolves the promise with `value`. -/
def cancel {R E : Type} (s : ItemState R E) (value : Option R) : ItemState R E :=
  if s.cancelled then s
  else { resolveItem s value with cancelled := true }

/-- Effect of a first `cancel` call on an item array holding the item: the
closure mutates only the matching item's `cancelled` field in place; nothing
is removed from `_dataArray` or from any unit's `items`. -/
def cancelInArray {T : Type} (arr : List (_Item T)) (id : String) : List (_Item T) :=
  arr.map (fun i => if i.id == id then { i with cancelled := true } else i)

/-- The `flushItem.promise.catch(() => \x7b\x7d).finally(...)` cleanup (lines
158-163), run when the unit's promise settles with `outcome`: on fulfilment
and on rejection alike, the unit is removed from the registry. -/
def completeFlushUnit {T R E : Type} (st : BatcherState T) (uid : Nat)
    (outcome : Except E (List (String × R))) : BatcherState T :=
  match outcome with
  | .ok _ => { st with pendingFlushes := st.pendingFlushes.filter (fun u => u.uid != uid) }
  | .error _ => { st with pendingFlushes := st.pendingFlushes.filter (fun u => u.uid != uid) }

/-- `amountOfPendingFlushes: () => pendingFlushes.size` (line 205). -/
def amountOfPendingFlushes {T : Type} (st : BatcherState T) : Nat :=
  st.pendingFlushes.length

/-- `Promise.all` over the raw unit promises: fulfils with `()` when every
promise fulfils, rejects as soon as one rejects (which rejection wins is
timing dependent in the source; the model takes the first in registry order,
and the theorems below depend only on whether a rejection exists). -/
def promiseAllOutcome {E A : Type} : List (Except E A) → Except E Unit
  | [] => .ok ()
  | .ok _ :: rest => promiseAllOutcome rest
  | .error e :: _ => .error e

/-- Registry state left by `waitForAll()` (lines 210-222): clear the max-wait
timer, force-flush the open group, then for every registered unit `settle()`
its dwell timer and await its promise; as each promise settles, its `.finally`
cleanup removes it from the registry.  `outcomes uid` is the settled result of
the flush promise of the unit with identity `uid`; the model is
single-threaded, so no new units are created while the call is in flight. -/
def waitForAllState {T R E : Type} (minTimeInMs : Option Int)
    (outcomes : Nat → Except E (List (String × R))) (st : BatcherState T)
    (now : Int) : BatcherState T :=
  let st1 := _flushStep minTimeInMs now { st with batchTimeout := none }
  st1.pendingFlushes.foldl (fun s u => completeFlushUnit s u.uid (outcomes u.uid)) st1

/-- The value `waitForAll()`'s own promise settles with: the `Promise.all` of
the raw promises of every unit registered when the `Array.from(pendingFlushes)`
snapshot is taken (line 217), the force-flushed unit included. -/
def waitForAllOutcome {T R E : Type} (minTimeInMs : Option Int)
    (outcomes : Nat → Except E (List (String × R))) (st : BatcherState T)
    (now : Int) : Except E Unit :=
  let st1 := _flushStep minTimeInMs now { st with batchTimeout := none }
  promiseAllOutcome (st1.pendingFlushes.map (fun u => outcomes u.uid))

/-- Shorthand for the flush-start filter (line 63): the items of the handed-off
group whose `cancelled` snapshot is `false` when `flush` starts running. -/
def survivors {T : Type} (dataArray : List (_Item T)) : List (_Item T) :=
  dataArray.filter (fun i => i.cancelled == false)

/-- The handler-argument view of a surviving item (line 70): the public fields
with `delta_ms` recomputed from `Date.now()` at flush time. -/
def toHandlerItem {T : Type} (now : Int) (d : _Item T) : Item T :=
  { id := d.id, data := d.data, delta_ms := now - d.arrivedAt }

/-- Concrete sample data used to evaluate the model in witnesses. -/
def itemA : _Item Nat :=
  { id := "a", data := 1, delta_ms := 0, arrivedAt := 0, cancelled := false }

/-- A second sample item, already cancelled before the flush starts. -/
def itemB : _Item Nat :=
  { id := "b", data := 2, delta_ms := 0, arrivedAt := 3, cancelled := true }

/-- A third sample item, not cancelled. -/
def itemC : _Item Nat :=
  { id := "c", data := 4, delta_ms := 0, arrivedAt := 1, cancelled := false }

/-- A sample handler that fulfils with one entry per item, echoing the item's
data plus one. -/
def okHandler : OnFlushFn Nat Nat Nat :=
  fun batch => .ok (some (batch.map (fun i => (i.id, i.data + 1))))

/-- A sample handler that fulfils with `void`. -/
def voidHandler : OnFlushFn Nat Nat Nat := fun _ => .ok none

/-- A sample handler that rejects with the error `7`. -/
def errHandler : OnFlushFn Nat Nat Nat := fun _ => .error 7

/-- A sample handler returning an entry only for id "c". -/
def onlyCHandler : OnFlushFn Nat Nat Nat :=
  fun _ => .ok (some [("c", 9)])

/-- A concrete batcher state holding one open item, used in witnesses. -/
def sampleState1 : BatcherState Nat :=
  { _dataArray := [itemA], batchTimeout := some 100, pendingFlushes := [], unitsCreated := 0 }

/-- A registry state holding one in-flight unit of identity 0, used for C1. -/
def sampleRegistryState : BatcherState Nat :=
  { _dataArray := [], batchTimeout := none,
    pendingFlushes := [{ uid := 0, items := [itemA], timeToFlush := 0 }],
    unitsCreated := 1 }

end NodeBatcher

namespace NodeBatcher

/-- A `List.lookup` on an entry list none of whose keys is `id` misses. -/
theorem lookup_eq_none_of_no_key {R : Type} (rs : List (String × R)) (id : String)
    (h : ∀ p ∈ rs, p.1 ≠ id) : rs.lookup id = none := by
  induction rs with
  | nil => rfl
  | cons p rest ih =>
      have hp : p.1 ≠ id := h p (List.mem_cons_self _ _)
      have hb : (id == p.1) = false := beq_false_of_ne (Ne.symm hp)
      simp only [List.lookup, hb]
      exact ih (fun q hq => h q (List.mem_cons_of_mem _ hq))

/-- A `List.lookup` on an entry list with pairwise distinct keys finds the
value of the entry carrying `id`. -/
theorem lookup_eq_some_of_mem {R : Type} (rs : List (String × R)) (id : String) (d : R)
    (hnd : (rs.map Prod.fst).Nodup) (h : (id, d) ∈ rs) : rs.lookup id = some d := by
  induction rs with
  | nil => cases h
  | cons p rest ih =>
      rcases List.mem_cons.mp h with heq | hmem
      · subst heq
        simp [List.lookup]
      · have hid : id ∈ rest.map Prod.fst := List.mem_map.mpr ⟨(id, d), hmem, rfl⟩
        have hp : p.1 ≠ id := by
          intro hc
          exact (List.nodup_cons.mp (by simpa using hnd)).1 (hc ▸ hid)
        have hb : (id == p.1) = false := beq_false_of_ne (Ne.symm hp)
        simp only [List.lookup, hb]
        exact ih (List.nodup_cons.mp (by simpa using hnd)).2 hmem

/-- `mapGet` misses for an id carried by no entry. -/
theorem mapGet_eq_none_of_no_key {R : Type} (rs : List (String × R)) (id : String)
    (h : ∀ p ∈ rs, p.1 ≠ id) : mapGet rs id = none := by
  unfold mapGet
  exact lookup_eq_none_of_no_key _ _ (fun p hp => h p (List.mem_reverse.mp hp))

/-- `mapGet` finds the value of the unique entry carrying `id` when the entry
keys are pairwise distinct. -/
theorem mapGet_eq_some_of_mem {R : Type} (rs : List (String × R)) (id : String) (d : R)
    (hnd : (rs.map Prod.fst).Nodup) (h : (id, d) ∈ rs) : mapGet rs id = some d := by
  unfold mapGet
  refine lookup_eq_some_of_mem _ _ _ ?_ (List.mem_reverse.mpr h)
  rw [List.map_reverse]
  exact List.nodup_reverse.mpr hnd

/-- Claim C4: the flush handler is invoked with exactly the items whose
`cancelled` flag was `false` when the flush started, in enqueue order (the
filtered list is a sublist of the handed-off group, so relative order is
preserved); when zero items survive the filter, the handler is not invoked at
all and the flush resolves with an empty result, performing no settlements. -/
theorem C4_flush_start_filter {T R E : Type} (onFlush : OnFlushFn T R E)
    (now : Int) (dataArray : List (_Item T)) (cAtSettle : _Item T → Bool) :
    (∀ i : _Item T, i ∈ survivors dataArray ↔ i ∈ dataArray ∧ i.cancelled = false) ∧
    (survivors dataArray).Sublist dataArray ∧
    (survivors dataArray ≠ [] →
      (flush onFlush now dataArray cAtSettle).handlerArg =
        some ((survivors dataArray).map (toHandlerItem now))) ∧
    (survivors dataArray = [] →
      (flush onFlush now dataArray cAtSettle).handlerArg = none ∧
      (flush onFlush now dataArray cAtSettle).outcome = .ok [] ∧
      (flush onFlush now dataArray cAtSettle).settlements = []) := by
  refine ⟨?_, List.filter_sublist _, ?_, ?_⟩
  · intro i
    simp [survivors, List.mem_filter]
  · intro hne
    have hlen : ¬ ((dataArray.filter (fun i => i.cancelled == false)).length = 0) := by
      simpa [survivors, List.length_eq_zero] using hne
    simp only [flush, survivors, toHandlerItem]
    rw [if_neg hlen]
    split <;> rfl
  · intro he
    have hlen : (dataArray.filter (fun i => i.cancelled == false)).length = 0 := by
      rw [survivors] at he
      rw [he]
      rfl
    simp only [flush]
    rw [if_pos hlen]
    exact ⟨rfl, rfl, rfl⟩

/-- Unfolding of `flush` when at least one item survives the filter and the
handler rejects with `e`: every surviving item whose `cancelled` flag is still
unset at settlement time is rejected with `e`, and the flush promise itself
rejects with `e`. -/
theorem flush_eq_of_error {T R E : Type} (onFlush : OnFlushFn T R E) (now : Int)
    (dataArray : List (_Item T)) (cAtSettle : _Item T → Bool) (e : E)
    (hne : survivors dataArray ≠ [])
    (herr : onFlush ((survivors dataArray).map (toHandlerItem now)) = .error e) :
    flush onFlush now dataArray cAtSettle =
      { handlerArg := some ((survivors dataArray).map (toHandlerItem now))
        settlements := (survivors dataArray).filterMap (fun i =>
          if cAtSettle i then none else some (i, .rejected e))
        outcome := .error e } := by
  have hlen : ¬ ((dataArray.filter (fun i => i.cancelled == false)).length = 0) := by
    simpa [survivors, List.length_eq_zero] using hne
  have herr2 : onFlush (List.map
      (fun d => ({ id := d.id, data := d.data, delta_ms := now - d.arrivedAt } : Item T))
      (List.filter (fun i => i.cancelled == false) dataArray)) = Except.error e := herr
  simp only [flush]
  rw [if_neg hlen, herr2]
  rfl

/-- Unfolding of `flush` when at least one item survives the filter and the
handler fulfils with an entry list `rs`: each still-uncancelled survivor is
resolved with the `Map` lookup of its id, and the flush promise fulfils with
`rs`. -/
theorem flush_eq_of_ok_some {T R E : Type} (onFlush : OnFlushFn T R E) (now : Int)
    (dataArray : List (_Item T)) (cAtSettle : _Item T → Bool) (rs : List (String × R))
    (hne : survivors dataArray ≠ [])
    (hok : onFlush ((survivors dataArray).map (toHandlerItem now)) = .ok (some rs)) :
    flush onFlush now dataArray cAtSettle =
      { handlerArg := some ((survivors dataArray).map (toHandlerItem now))
        settlements := (survivors dataArray).filterMap (fun i =>
          if cAtSettle i then none else some (i, .resolved (mapGet rs i.id)))
        outcome := .ok rs } := by
  have hlen : ¬ ((dataArray.filter (fun i => i.cancelled == false)).length = 0) := by
    simpa [survivors, List.length_eq_zero] using hne
  have hok2 : onFlush (List.map
      (fun d => ({ id := d.id, data := d.data, delta_ms := now - d.arrivedAt } : Item T))
      (List.filter (fun i => i.cancelled == false) dataArray)) = Except.ok (some rs) := hok
  simp only [flush]
  rw [if_neg hlen, hok2]
  rfl

/-- Unfolding of `flush` when at least one item survives the filter and the
handler fulfils with `void`: each still-uncancelled survivor is resolved with
`null`, and the flush promise fulfils with the empty list (`result ?? []`). -/
theorem flush_eq_of_ok_none {T R E : Type} (onFlush : OnFlushFn T R E) (now : Int)
    (dataArray : List (_Item T)) (cAtSettle : _Item T → Bool)
    (hne : survivors dataArray ≠ [])
    (hok : onFlush ((survivors dataArray).map (toHandlerItem now)) = .ok none) :
    flush onFlush now dataArray cAtSettle =
      { handlerArg := some ((survivors dataArray).map (toHandlerItem now))
        settlements := (survivors dataArray).filterMap (fun i =>
          if cAtSettle i then none else some (i, .resolved none))
        outcome := .ok [] } := by
  have hlen : ¬ ((dataArray.filter (fun i => i.cancelled == false)).length = 0) := by
    simpa [survivors, List.length_eq_zero] using hne
  have hok2 : onFlush (List.map
      (fun d => ({ id := d.id, data := d.data, delta_ms := now - d.arrivedAt } : Item T))
      (List.filter (fun i => i.cancelled == false) dataArray)) = Except.ok none := hok
  simp only [flush]
  rw [if_neg hlen, hok2]
  rfl

/-- Witness for C4 at concrete inputs: with one live and one cancelled item
the handler argument is exactly the live item's view; with only a cancelled
item the handler is skipped and the result is empty. -/
theorem C4_witness :
    (flush okHandler 5 [itemA, itemB] (fun _ => false)).handlerArg =
      some [{ id := "a", data := 1, delta_ms := 5 }] ∧
    (flush okHandler 5 [itemB] (fun _ => false)).handlerArg = none ∧
    (flush okHandler 5 [itemB] (fun _ => false)).outcome = .ok [] := by
  have h1 := (C4_flush_start_filter okHandler 5 [itemA, itemB] (fun _ => false)).2.2.1
    (by decide)
  have h2 := (C4_flush_start_filter okHandler 5 [itemB] (fun _ => false)).2.2.2
    (by decide)
  refine ⟨?_, h2.1, h2.2.1⟩
  rw [h1]
  rfl

/-- Claim C2: when the flush handler invocation rejects with an error `e`,
every item of the batch that survived the flush-start filter and is still
uncancelled at settlement time is rejected with that same `e`; moreover every
settlement this flush performs is such a rejection of such an item, and `e`
is re-raised to the flush unit's own result promise. -/
theorem C2_handler_rejection_rejects_survivors {T R E : Type}
    (onFlush : OnFlushFn T R E) (now : Int) (dataArray : List (_Item T))
    (cAtSettle : _Item T → Bool) (e : E)
    (hne : survivors dataArray ≠ [])
    (herr : onFlush ((survivors dataArray).map (toHandlerItem now)) = .error e) :
    (flush onFlush now dataArray cAtSettle).outcome = .error e ∧
    (∀ i ∈ survivors dataArray, cAtSettle i = false →
      (i, Settlement.rejected e) ∈ (flush onFlush now dataArray cAtSettle).settlements) ∧
    (∀ p ∈ (flush onFlush now dataArray cAtSettle).settlements,
      p.2 = Settlement.rejected e ∧ p.1 ∈ survivors dataArray ∧ cAtSettle p.1 = false) := by
  rw [flush_eq_of_error onFlush now dataArray cAtSettle e hne herr]
  refine ⟨rfl, ?_, ?_⟩
  · intro i hi hc
    exact List.mem_filterMap.mpr ⟨i, hi, by simp [hc]⟩
  · intro p hp
    rcases List.mem_filterMap.mp hp with ⟨a, ha, hfa⟩
    by_cases hca : cAtSettle a
    · simp [hca] at hfa
    · rw [if_neg hca] at hfa
      cases hfa
      exact ⟨rfl, ha, by simpa using hca⟩

/-- Witness for C2 at a concrete input: the handler rejects with `7`, the
flush promise rejects with `7`, and the surviving item `itemA` is rejected
with `7`. -/
theorem C2_witness :
    (flush errHandler 5 [itemA, itemB] (fun _ => false)).outcome = Except.error 7 ∧
    (itemA, Settlement.rejected 7) ∈
      (flush errHandler 5 [itemA, itemB] (fun _ => false)).settlements := by
  have h := C2_handler_rejection_rejects_survivors errHandler 5 [itemA, itemB]
    (fun _ => false) 7 (by decide) rfl
  exact ⟨h.1, h.2.1 itemA (by decide) rfl⟩

/-- Claim C3, corrected: the claim holds only for surviving items that are
still uncancelled when the settlement loop runs (the success paths re-check
`i.cancelled === false` at line 81 and line 84, so a survivor cancelled during
the handler await keeps its cancel value instead of the mapped data).  With
that qualifier added: when the flush handler invocation fulfils with an entry
list, each surviving, still-uncancelled item is resolved with the mapped value
of its id - the entry's data when an entry with its id exists (stated for
pairwise-distinct entry ids), and `null` when no entry carries its id, which
is a resolution, not an error; when the handler fulfils with `void`, every
surviving, still-uncancelled item is resolved with `null`. -/
theorem C3_handler_success_resolution {T R E : Type} (onFlush : OnFlushFn T R E)
    (now : Int) (dataArray : List (_Item T)) (cAtSettle : _Item T → Bool)
    (hne : survivors dataArray ≠ []) :
    (∀ rs : List (String × R),
      onFlush ((survivors dataArray).map (toHandlerItem now)) = .ok (some rs) →
      (∀ i ∈ survivors dataArray, cAtSettle i = false →
        (i, Settlement.resolved (mapGet rs i.id)) ∈
          (flush onFlush now dataArray cAtSettle).settlements) ∧
      (∀ i ∈ survivors dataArray, cAtSettle i = false →
        ((∀ p ∈ rs, p.1 ≠ i.id) →
          (i, Settlement.resolved none) ∈
            (flush onFlush now dataArray cAtSettle).settlements) ∧
        (∀ d : R, (i.id, d) ∈ rs → (rs.map Prod.fst).Nodup →
          (i, Settlement.resolved (some d)) ∈
            (flush onFlush now dataArray cAtSettle).settlements))) ∧
    (onFlush ((survivors dataArray).map (toHandlerItem now)) = .ok none →
      ∀ i ∈ survivors dataArray, cAtSettle i = false →
        (i, Settlement.resolved none) ∈
          (flush onFlush now dataArray cAtSettle).settlements) := by
  constructor
  · intro rs hok
    rw [flush_eq_of_ok_some onFlush now dataArray cAtSettle rs hne hok]
    have hmem : ∀ i ∈ survivors dataArray, cAtSettle i = false →
        (i, (Settlement.resolved (mapGet rs i.id) : Settlement R E)) ∈
          (survivors dataArray).filterMap (fun i =>
            if cAtSettle i then none
            else some (i, (Settlement.resolved (mapGet rs i.id) : Settlement R E))) := by
      intro i hi hc
      exact List.mem_filterMap.mpr ⟨i, hi, by simp [hc]⟩
    refine ⟨hmem, ?_⟩
    intro i hi hc
    constructor
    · intro hno
      have h := hmem i hi hc
      rwa [mapGet_eq_none_of_no_key rs i.id hno] at h
    · intro d hd hnd
      have h := hmem i hi hc
      rwa [mapGet_eq_some_of_mem rs i.id d hnd hd] at h
  · intro hok i hi hc
    rw [flush_eq_of_ok_none onFlush now dataArray cAtSettle hne hok]
    exact List.mem_filterMap.mpr ⟨i, hi, by simp [hc]⟩

/-- Witness for C3 at concrete inputs: with an entry carrying its id `itemA`
resolves to that data; with no entry carrying its id it resolves to `null`;
under a `void` handler it resolves to `null`. -/
theorem C3_witness :
    (itemA, Settlement.resolved (some 2)) ∈
      (flush okHandler 5 [itemA, itemC] (fun _ => false)).settlements ∧
    (itemA, Settlement.resolved none) ∈
      (flush onlyCHandler 5 [itemA, itemC] (fun _ => false)).settlements ∧
    (itemA, Settlement.resolved none) ∈
      (flush voidHandler 5 [itemA] (fun _ => false)).settlements := by
  have h1 := ((C3_handler_success_resolution okHandler 5 [itemA, itemC]
      (fun _ => false) (by decide)).1 [("a", 2), ("c", 5)] rfl).2 itemA (by decide) rfl
  have h2 := ((C3_handler_success_resolution onlyCHandler 5 [itemA, itemC]
      (fun _ => false) (by decide)).1 [("c", 9)] rfl).2 itemA (by decide) rfl
  have h3 := (C3_handler_success_resolution voidHandler 5 [itemA]
      (fun _ => false) (by decide)).2 rfl itemA (by decide) rfl
  exact ⟨h1.2 2 (by decide) (by decide), h2.1 (by decide), h3⟩

/-- Counterexample to claim C3 as stated: `itemA` survives the flush-start
filter and the handler fulfils with the entry `("a", 2)` carrying its id, yet
when the item's `cancelled` flag was set during the handler await (settle-time
snapshot `true`) the flush performs no settlement at all for it - line 81's
`i.cancelled === false` re-check skips it, so the item does not resolve to the
mapped data (it keeps the value its cancel call resolved it with, as the repo
test on cancelling during a batch pins down). -/
theorem C3_counterexample :
    (flush okHandler 5 [itemA] (fun _ => true)).handlerArg =
      some [{ id := "a", data := 1, delta_ms := 5 }] ∧
    (flush okHandler 5 [itemA] (fun _ => true)).outcome = .ok [("a", 2)] ∧
    (flush okHandler 5 [itemA] (fun _ => true)).settlements = [] := by
  exact ⟨rfl, rfl, rfl⟩

/-- In a settlement loop guarded by a second cancellation check, an item of
the surviving list receives a settlement exactly when the check passes. -/
theorem mem_settle_filterMap {T A : Type} (l : List (_Item T)) (c : _Item T → Bool)
    (f : _Item T → A) (i : _Item T) (hi : i ∈ l) :
    (∃ s, (i, s) ∈ l.filterMap (fun j => if c j then none else some (j, f j))) ↔
      c i = false := by
  constructor
  · rintro ⟨s, hs⟩
    rcases List.mem_filterMap.mp hs with ⟨a, ha, hfa⟩
    by_cases hca : c a
    · simp [hca] at hfa
    · rw [if_neg hca] at hfa
      cases hfa
      simpa using hca
  · intro hc
    exact ⟨f i, List.mem_filterMap.mpr ⟨i, hi, by simp [hc]⟩⟩

/-- Claim C5, corrected: the `cancelled` flag is NOT consulted only once.
After the flush-start filter, the settlement phase consults each surviving
item's mutable `cancelled` flag a second time: whatever the handler outcome, a
surviving item receives a settlement from the flush exactly when its
`cancelled` flag is still `false` when the settlement loop runs. -/
theorem C5_settlement_rechecks_cancelled {T R E : Type} (onFlush : OnFlushFn T R E)
    (now : Int) (dataArray : List (_Item T)) (cAtSettle : _Item T → Bool) :
    ∀ i ∈ survivors dataArray,
      (∃ s, (i, s) ∈ (flush onFlush now dataArray cAtSettle).settlements) ↔
        cAtSettle i = false := by
  intro i hi
  have hne : survivors dataArray ≠ [] := List.ne_nil_of_mem hi
  cases hres : onFlush ((survivors dataArray).map (toHandlerItem now)) with
  | error e =>
      rw [flush_eq_of_error onFlush now dataArray cAtSettle e hne hres]
      exact mem_settle_filterMap _ _ _ i hi
  | ok r =>
      cases r with
      | some rs =>
          rw [flush_eq_of_ok_some onFlush now dataArray cAtSettle rs hne hres]
          exact mem_settle_filterMap _ _ _ i hi
      | none =>
          rw [flush_eq_of_ok_none onFlush now dataArray cAtSettle hne hres]
          exact mem_settle_filterMap _ _ _ i hi

/-- Counterexample to claim C5 as stated: `itemA` survives the flush-start
filter (the handler is invoked with it), yet when its `cancelled` flag is set
during the handler invocation (settle-time snapshot `true`) the settlement
phase skips it, while with the flag still `false` it is settled - so the
settlement phase does consult the `cancelled` flag after the filter. -/
theorem C5_counterexample :
    (flush voidHandler 5 [itemA] (fun _ => true)).handlerArg =
      some [{ id := "a", data := 1, delta_ms := 5 }] ∧
    (flush voidHandler 5 [itemA] (fun _ => true)).settlements = [] ∧
    (flush voidHandler 5 [itemA] (fun _ => false)).settlements =
      [(itemA, Settlement.resolved none)] := by
  exact ⟨rfl, rfl, rfl⟩

/-- Witness for the corrected C5 at a concrete input: the still-uncancelled
survivor `itemA` does receive a settlement. -/
theorem C5_witness :
    ∃ s, (itemA, s) ∈ (flush voidHandler 5 [itemA, itemB] (fun _ => false)).settlements := by
  have h := C5_settlement_rechecks_cancelled voidHandler 5 [itemA, itemB]
    (fun _ => false) itemA (by decide)
  exact h.mpr rfl

/-- Unfolding of `_flushStep` on an empty open group: nothing happens, no unit
is created. -/
theorem _flushStep_empty {T : Type} (M : Option Int) (now : Int) (st : BatcherState T)
    (h : st._dataArray = []) : _flushStep M now st = st := by
  simp only [_flushStep, h]

/-- Unfolding of `_flushStep` on a nonempty open group: the group moves into a
fresh unit whose dwell is computed from the first item's arrival time, the
unit is appended to the registry, and the open group empties. -/
theorem _flushStep_cons {T : Type} (M : Option Int) (now : Int) (st : BatcherState T)
    (first : _Item T) (rest : List (_Item T)) (h : st._dataArray = first :: rest) :
    _flushStep M now st =
      { st with _dataArray := [],
                pendingFlushes := st.pendingFlushes ++
                  [{ uid := st.unitsCreated, items := first :: rest,
                     timeToFlush := timeToFlushOf M now first.arrivedAt }],
                unitsCreated := st.unitsCreated + 1 } := by
  simp only [_flushStep, h, timeToFlushOf]

/-- Claim C6: for a group closed at `t` whose first item arrived at `t0` with
minimum dwell `M`, the handler thunk is not invoked before
`max(M - (t - t0), 0)` has elapsed after the close (its scheduled invocation
time is exactly `t + max(M - (t - t0), 0)` absent a `settle()` fast-forward);
when `M - (t - t0)` is not positive the unit takes the immediate constructor
path - the handler thunk runs at the close time, no timer is armed; and each
closed group's unit carries a dwell computed only from its own first item,
with previously registered units (and their timers) left untouched, so
concurrently-closed groups' dwell timers run independently. -/
theorem C6_dwell_timing {T : Type} (M : Option Int) (t t0 : Int)
    (st : BatcherState T) (first : _Item T) (rest : List (_Item T))
    (harr : st._dataArray = first :: rest) :
    (handlerInvokeTime t (timeToFlushOf M t t0) = t + max ((M.getD 0) - (t - t0)) 0) ∧
    ((M.getD 0) - (t - t0) ≤ 0 →
      timeToFlushOf M t t0 = 0 ∧
      (mkFlushBatch (timeToFlushOf M t t0)).immediate = true ∧
      (mkFlushBatch (timeToFlushOf M t t0)).timerActive = false ∧
      handlerInvokeTime t (timeToFlushOf M t t0) = t) ∧
    (0 < (M.getD 0) - (t - t0) →
      (mkFlushBatch (timeToFlushOf M t t0)).timerActive = true ∧
      (mkFlushBatch (timeToFlushOf M t t0)).immediate = false ∧
      handlerInvokeTime t (timeToFlushOf M t t0) = t + ((M.getD 0) - (t - t0)) ∧
      t < handlerInvokeTime t (timeToFlushOf M t t0)) ∧
    (∃ u : FlushUnit T,
      (_flushStep M t st).pendingFlushes = st.pendingFlushes ++ [u] ∧
      u.items = first :: rest ∧
      u.timeToFlush = timeToFlushOf M t first.arrivedAt) := by
  refine ⟨?_, ?_, ?_, ?_⟩
  · by_cases h : timeToFlushOf M t t0 > 0
    · rw [handlerInvokeTime, if_pos h]
      rfl
    · rw [handlerInvokeTime, if_neg h]
      have h0 : (0 : Int) ≤ max ((M.getD 0) - (t - t0)) 0 := le_max_right _ _
      have hz : max ((M.getD 0) - (t - t0)) 0 = 0 := by
        have hle := not_lt.mp h
        rw [timeToFlushOf] at hle
        omega
      omega
  · intro h
    have hz : timeToFlushOf M t t0 = 0 := by
      rw [timeToFlushOf]
      exact max_eq_right h
    refine ⟨hz, ?_, ?_, ?_⟩
    · rw [hz]; rfl
    · rw [hz]; rfl
    · rw [hz, handlerInvokeTime]; rfl
  · intro h
    have hp : timeToFlushOf M t t0 = (M.getD 0) - (t - t0) := by
      rw [timeToFlushOf]
      exact max_eq_left (le_of_lt h)
    have hpos : 0 < timeToFlushOf M t t0 := by rw [hp]; exact h
    refine ⟨?_, ?_, ?_, ?_⟩
    · rw [mkFlushBatch, if_pos hpos]
    · rw [mkFlushBatch, if_pos hpos]
    · rw [handlerInvokeTime, if_pos hpos, hp]
    · rw [handlerInvokeTime, if_pos hpos]
      omega
  · refine ⟨{ uid := st.unitsCreated, items := first :: rest,
              timeToFlush := timeToFlushOf M t first.arrivedAt }, ?_, rfl, rfl⟩
    rw [_flushStep_cons M t st first rest harr]

/-- Witness for C6 at concrete inputs: with `minTimeInMs = 50`, a group whose
first item arrived at `0` and that closes at `30` is scheduled at `50` with a
live timer, while one closing at `120` runs immediately. -/
theorem C6_witness :
    handlerInvokeTime 30 (timeToFlushOf (some 50) 30 0) = 50 ∧
    (mkFlushBatch (timeToFlushOf (some 50) 30 0)).timerActive = true ∧
    (mkFlushBatch (timeToFlushOf (some 50) 120 0)).immediate = true ∧
    handlerInvokeTime 120 (timeToFlushOf (some 50) 120 0) = 120 := by
  have h1 := C6_dwell_timing (some 50) 30 0
    ({ _dataArray := [itemA], batchTimeout := none, pendingFlushes := [],
       unitsCreated := 0 } : BatcherState Nat) itemA [] rfl
  have h2 := C6_dwell_timing (some 50) 120 0
    ({ _dataArray := [itemA], batchTimeout := none, pendingFlushes := [],
       unitsCreated := 0 } : BatcherState Nat) itemA [] rfl
  have ha := h1.2.2.1 (by decide)
  have hb := h2.2.1 (by decide)
  exact ⟨by rw [h1.1]; decide, ha.1, hb.2.1, hb.2.2.2⟩

/-- One enqueue always leaves the open group strictly below a positive
`maxSize`: either the push stayed below `maxSize`, or the size trigger fired
and the group was flushed to empty within the call. -/
theorem addAndWait_length_lt {T : Type} (maxSize : Nat) (maxTimeInMs : Int)
    (M : Option Int) (st : BatcherState T) (now : Int) (id : String) (data : T)
    (hpos : 0 < maxSize) :
    (addAndWait maxSize maxTimeInMs M st now id data)._dataArray.length < maxSize := by
  simp only [addAndWait]
  by_cases htrig : (st._dataArray ++ [mkPendingItem now id data]).length ≥ maxSize
  · rw [if_pos htrig]
    cases hst : st._dataArray with
    | nil =>
        rw [_flushStep_cons M now _ (mkPendingItem now id data) [] (by simp [hst])]
        simpa using hpos
    | cons a rest =>
        rw [_flushStep_cons M now _ a (rest ++ [mkPendingItem now id data]) (by simp [hst])]
        simpa using hpos
  · rw [if_neg htrig]
    have hlt : (st._dataArray ++ [mkPendingItem now id data]).length < maxSize :=
      lt_of_not_ge htrig
    split <;> simpa using hlt

/-- Claim C7: with a positive `maxSize`, the open group's length never exceeds
`maxSize` - after any enqueue it is strictly below `maxSize`, hence below
`maxSize` after every sequence of enqueues from a fresh batcher, and the
transient array at the trigger check has length at most `maxSize` - and the
enqueue that brings the group to exactly `maxSize` items is included in the
group, cancels the pending max-wait timer, and closes and hands off the group
within that same call, for every `maxTimeInMs`. -/
theorem C7_max_size_trigger {T : Type} (maxSize : Nat) (maxTimeInMs : Int)
    (M : Option Int) (st : BatcherState T) (now : Int) (id : String) (data : T)
    (hpos : 0 < maxSize) :
    (addAndWait maxSize maxTimeInMs M st now id data)._dataArray.length < maxSize ∧
    (st._dataArray.length < maxSize →
      (st._dataArray ++ [mkPendingItem now id data]).length ≤ maxSize) ∧
    (∀ calls : List (Int × String × T),
      (calls.foldl (fun s c => addAndWait maxSize maxTimeInMs M s c.1 c.2.1 c.2.2)
        (initialState T))._dataArray.length < maxSize) ∧
    (st._dataArray.length + 1 = maxSize →
      ∃ u : FlushUnit T,
        (addAndWait maxSize maxTimeInMs M st now id data).pendingFlushes =
          st.pendingFlushes ++ [u] ∧
        u.items = st._dataArray ++ [mkPendingItem now id data] ∧
        (addAndWait maxSize maxTimeInMs M st now id data)._dataArray = [] ∧
        (addAndWait maxSize maxTimeInMs M st now id data).batchTimeout = none) := by
  refine ⟨addAndWait_length_lt maxSize maxTimeInMs M st now id data hpos, ?_, ?_, ?_⟩
  · intro hinv
    simp only [List.length_append, List.length_singleton]
    omega
  · intro calls
    induction calls using List.reverseRecOn with
    | nil => simpa [initialState] using hpos
    | append_singleton l c ih =>
        rw [List.foldl_append]
        exact addAndWait_length_lt maxSize maxTimeInMs M _ c.1 c.2.1 c.2.2 hpos
  · intro htrig
    have hge : (st._dataArray ++ [mkPendingItem now id data]).length ≥ maxSize := by
      simp only [List.length_append, List.length_singleton]
      omega
    simp only [addAndWait]
    rw [if_pos hge]
    cases hst : st._dataArray with
    | nil =>
        rw [_flushStep_cons M now _ (mkPendingItem now id data) [] (by simp [hst])]
        exact ⟨{ uid := st.unitsCreated, items := [mkPendingItem now id data],
                 timeToFlush := timeToFlushOf M now (mkPendingItem now id data).arrivedAt },
               by simp [hst], by simp [hst], rfl, rfl⟩
    | cons a rest =>
        rw [_flushStep_cons M now _ a (rest ++ [mkPendingItem now id data]) (by simp [hst])]
        exact ⟨{ uid := st.unitsCreated, items := a :: (rest ++ [mkPendingItem now id data]),
                 timeToFlush := timeToFlushOf M now a.arrivedAt },
               by simp [hst], by simp [hst], rfl, rfl⟩

/-- Witness for C7 at a concrete input: with `maxSize = 2` and one open item,
the second enqueue empties the open group, clears the max-wait timer, and
leaves the group below `maxSize`. -/
theorem C7_witness :
    (addAndWait 2 100 none sampleState1 10 "b" 2)._dataArray = [] ∧
    (addAndWait 2 100 none sampleState1 10 "b" 2).batchTimeout = none ∧
    (addAndWait 2 100 none sampleState1 10 "b" 2)._dataArray.length < 2 := by
  obtain ⟨u, hreg, hitems, hempty, htimer⟩ :=
    (C7_max_size_trigger 2 100 none sampleState1 10 "b" 2 (by decide)).2.2.2 (by decide)
  exact ⟨hempty, htimer,
    (C7_max_size_trigger 2 100 none sampleState1 10 "b" 2 (by decide)).1⟩

/-- Claim C9: the first call of an item's cancel handle with value `v`
immediately resolves the item's promise with `v`; any later call is a no-op
(only the first value is honoured); and cancelling removes nothing from the
accumulator array - the ids, their order, and the array length are unchanged,
the item remains present with its flag set - with removal happening only
lazily, through the flush-start filter excluding the flagged item. -/
theorem C9_cancel_semantics {T R E : Type} (s : ItemState R E) (v w : Option R)
    (arr : List (_Item T)) (id : String) :
    (s.cancelled = false → s.settled = none →
      (cancel s v).settled = some (Settlement.resolved v) ∧
      (cancel s v).cancelled = true) ∧
    (cancel (cancel s v) w = cancel s v) ∧
    ((cancelInArray arr id).map (fun i => i.id) = arr.map (fun i => i.id)) ∧
    ((cancelInArray arr id).length = arr.length) ∧
    (∀ i ∈ arr, i.id = id → { i with cancelled := true } ∈ cancelInArray arr id) ∧
    (∀ i ∈ survivors (cancelInArray arr id), i.id ≠ id) := by
  refine ⟨?_, ?_, ?_, ?_, ?_, ?_⟩
  · intro hc hs
    simp [cancel, resolveItem, hc, hs]
  · by_cases hc : s.cancelled
    · simp [cancel, hc]
    · have h1 : (cancel s v).cancelled = true := by
        simp [cancel, hc]
      simp [cancel, hc, h1]
  · rw [cancelInArray, List.map_map]
    apply List.map_congr_left
    intro a ha
    by_cases h : a.id = id <;> simp [h]
  · simp [cancelInArray]
  · intro i hi hid
    exact List.mem_map.mpr ⟨i, hi, by simp [hid]⟩
  · intro i hi hid
    rcases List.mem_filter.mp hi with ⟨hmem, hcanc⟩
    rcases List.mem_map.mp hmem with ⟨j, hj, hji⟩
    by_cases h : j.id == id
    · rw [if_pos h] at hji
      rw [← hji] at hcanc
      simp at hcanc
    · rw [if_neg h] at hji
      rw [← hji] at hid
      simp at h
      exact h hid

/-- Witness for C9 at concrete inputs: cancelling a fresh item with `88`
resolves it with `88`, a second cancel with `5` changes nothing, and
cancelling id "a" leaves both ids in the array. -/
theorem C9_witness :
    (cancel (⟨false, none⟩ : ItemState Nat Nat) (some 88)).settled =
      some (Settlement.resolved (some 88)) ∧
    cancel (cancel (⟨false, none⟩ : ItemState Nat Nat) (some 88)) (some 5) =
      cancel (⟨false, none⟩ : ItemState Nat Nat) (some 88) ∧
    (cancelInArray [itemA, itemC] "a").map (fun i => i.id) = ["a", "c"] := by
  have h := C9_cancel_semantics (⟨false, none⟩ : ItemState Nat Nat) (some 88) (some 5)
      [itemA, itemC] "a"
  refine ⟨(h.1 rfl rfl).1, h.2.1, ?_⟩
  rw [h.2.2.1]
  rfl

/-- Claim C10: `settle()` never prevents the flush handler thunk from running
- on any freshly constructed unit the thunk is triggered (immediately at
construction when there was no dwell, or by the resolver `settle` calls), and
`settle` never un-triggers it; `settle` is idempotent; its first call clears
the dwell timer; on a positive-dwell unit it resolves the dwell wait early;
and on a unit with no remaining dwell (`timeToFlush` not positive) it is a
harmless no-op - such a unit has no timer and no stored resolver, its handler
thunk already ran at construction, and `settle` changes nothing but the
internal `_isSettled` flag. -/
theorem C10_settle_semantics (t : Int) (s : FlushBatchState) :
    (handlerInvoked (settleFB (mkFlushBatch t)) = true) ∧
    (handlerInvoked s = true → handlerInvoked (settleFB s) = true) ∧
    (settleFB (settleFB s) = settleFB s) ∧
    (s.isSettled = false → (settleFB s).timerActive = false) ∧
    (0 < t →
      (mkFlushBatch t).timerActive = true ∧
      (settleFB (mkFlushBatch t)).dwellResolved = true) ∧
    (t ≤ 0 →
      (mkFlushBatch t).timerActive = false ∧
      (mkFlushBatch t).resolveStored = false ∧
      (mkFlushBatch t).immediate = true ∧
      handlerInvoked (mkFlushBatch t) = true ∧
      settleFB (mkFlushBatch t) = { mkFlushBatch t with isSettled := true }) := by
  refine ⟨?_, ?_, ?_, ?_, ?_, ?_⟩
  · by_cases ht : 0 < t
    · simp [mkFlushBatch, ht, settleFB, handlerInvoked]
    · simp [mkFlushBatch, ht, settleFB, handlerInvoked]
  · intro h
    by_cases hs : s.isSettled
    · simpa [settleFB, hs] using h
    · simp only [handlerInvoked, Bool.or_eq_true] at h
      rcases h with h | h <;> simp [settleFB, hs, handlerInvoked, h]
  · by_cases hs : s.isSettled
    · simp [settleFB, hs]
    · simp [settleFB, hs]
  · intro hs
    simp [settleFB, hs]
  · intro ht
    constructor
    · simp [mkFlushBatch, ht]
    · simp [mkFlushBatch, ht, settleFB]
  · intro ht
    have ht2 : ¬ (0 < t) := not_lt.mpr ht
    refine ⟨by simp [mkFlushBatch, ht2], by simp [mkFlushBatch, ht2],
      by simp [mkFlushBatch, ht2], by simp [mkFlushBatch, ht2, handlerInvoked], ?_⟩
    simp [mkFlushBatch, ht2, settleFB]

/-- Witness for C10 at concrete inputs: on a unit with dwell `20`, `settle`
triggers the handler thunk, is idempotent, and clears the timer; on a unit
with dwell `0` it only flips the internal settled flag. -/
theorem C10_witness :
    handlerInvoked (settleFB (mkFlushBatch 20)) = true ∧
    settleFB (settleFB (mkFlushBatch 20)) = settleFB (mkFlushBatch 20) ∧
    (settleFB (mkFlushBatch 20)).timerActive = false ∧
    settleFB (mkFlushBatch 0) = { mkFlushBatch 0 with isSettled := true } := by
  have h := C10_settle_semantics 20 (mkFlushBatch 20)
  have h0 := C10_settle_semantics 0 (mkFlushBatch 0)
  exact ⟨h.1, h.2.2.1, h.2.2.2.1 (by decide), (h0.2.2.2.2.2 (by decide)).2.2.2.2⟩

/-- `completeFlushUnit` removes exactly the units carrying the settled
promise's identity, whatever the outcome. -/
theorem completeFlushUnit_pendingFlushes {T R E : Type} (st : BatcherState T)
    (uid : Nat) (o : Except E (List (String × R))) :
    (completeFlushUnit st uid o).pendingFlushes =
      st.pendingFlushes.filter (fun v => v.uid != uid) := by
  cases o <;> rfl

/-- Awaiting a batch of settled units removes each of their identities from
the registry. -/
theorem foldl_complete_pendingFlushes {T R E : Type}
    (outcomes : Nat → Except E (List (String × R)))
    (l : List (FlushUnit T)) (s : BatcherState T) :
    ((l.foldl (fun s u => completeFlushUnit s u.uid (outcomes u.uid)) s)).pendingFlushes =
      s.pendingFlushes.filter (fun v => l.all (fun u => v.uid != u.uid)) := by
  induction l generalizing s with
  | nil =>
      simp only [List.foldl_nil, List.all_nil]
      rw [List.filter_eq_self.mpr]
      intro a ha
      rfl
  | cons u rest ih =>
      rw [List.foldl_cons, ih, completeFlushUnit_pendingFlushes, List.filter_filter]
      apply List.filter_congr
      intro a ha
      simp [List.all_cons, Bool.and_comm]

/-- Claim C8: a flush unit created for a nonempty group is appended to the
registry immediately at creation (growing `amountOfPendingFlushes` by one);
the settlement cleanup removes it whether its promise fulfilled or rejected
(the cleanup's effect does not depend on the outcome, and after it no unit
with the settled identity remains registered); `amountOfPendingFlushes`
returns the registry's size; and after `waitForAll()` has awaited every unit
registered at call time, `amountOfPendingFlushes` returns `0`. -/
theorem C8_registry_lifecycle {T R E : Type} (M : Option Int)
    (outcomes : Nat → Except E (List (String × R))) (st : BatcherState T)
    (now : Int) (uid : Nat) (o o2 : Except E (List (String × R)))
    (first : _Item T) (rest : List (_Item T)) :
    (st._dataArray = first :: rest →
      ∃ u : FlushUnit T,
        (_flushStep M now st).pendingFlushes = st.pendingFlushes ++ [u] ∧
        amountOfPendingFlushes (_flushStep M now st) = amountOfPendingFlushes st + 1) ∧
    (completeFlushUnit st uid o = completeFlushUnit st uid o2) ∧
    (∀ u : FlushUnit T, u ∈ (completeFlushUnit st uid o).pendingFlushes ↔
      (u ∈ st.pendingFlushes ∧ u.uid ≠ uid)) ∧
    (amountOfPendingFlushes st = st.pendingFlushes.length) ∧
    (amountOfPendingFlushes (waitForAllState M outcomes st now) = 0) := by
  refine ⟨?_, ?_, ?_, rfl, ?_⟩
  · intro harr
    refine ⟨{ uid := st.unitsCreated, items := first :: rest,
              timeToFlush := timeToFlushOf M now first.arrivedAt }, ?_, ?_⟩
    · rw [_flushStep_cons M now st first rest harr]
    · rw [_flushStep_cons M now st first rest harr]
      simp [amountOfPendingFlushes]
  · cases o <;> cases o2 <;> rfl
  · intro u
    rw [completeFlushUnit_pendingFlushes]
    rw [List.mem_filter]
    simp [bne_iff_ne]
  · rw [amountOfPendingFlushes, waitForAllState]
    rw [foldl_complete_pendingFlushes]
    rw [List.length_eq_zero]
    apply List.filter_eq_nil_iff.mpr
    intro a ha
    intro hall
    have hself := (List.all_eq_true.mp hall) a ha
    simp at hself

/-- Witness for C8 at a concrete input: flushing the one-item open group grows
the registry by one, and a `waitForAll` over it empties the registry. -/
theorem C8_witness :
    amountOfPendingFlushes (waitForAllState none
      (fun _ => (Except.ok [] : Except Nat (List (String × Nat)))) sampleState1 10) = 0 ∧
    amountOfPendingFlushes (_flushStep none 10 sampleState1) =
      amountOfPendingFlushes sampleState1 + 1 := by
  have h := C8_registry_lifecycle none
      (fun _ => (Except.ok [] : Except Nat (List (String × Nat))))
      sampleState1 10 0 (Except.ok []) (Except.error 3) itemA []
  obtain ⟨u, hreg, hcount⟩ := h.1 rfl
  exact ⟨h.2.2.2.2, hcount⟩

/-- `Promise.all` fulfils exactly when every promise fulfils. -/
theorem promiseAllOutcome_ok_iff {E A : Type} (os : List (Except E A)) :
    promiseAllOutcome os = .ok () ↔ ∀ o ∈ os, ∃ a, o = .ok a := by
  induction os with
  | nil => simp [promiseAllOutcome]
  | cons o rest ih =>
      cases o with
      | ok a => simp [promiseAllOutcome, ih]
      | error e => simp [promiseAllOutcome]

/-- A rejection of `Promise.all` is the rejection of one of its promises. -/
theorem promiseAllOutcome_error {E A : Type} (os : List (Except E A)) (e : E)
    (h : promiseAllOutcome os = .error e) : Except.error e ∈ os := by
  induction os with
  | nil => simp [promiseAllOutcome] at h
  | cons o rest ih =>
      cases o with
      | ok a =>
          rw [promiseAllOutcome] at h
          exact List.mem_cons_of_mem _ (ih h)
      | error e2 =>
          rw [promiseAllOutcome] at h
          cases h
          exact List.mem_cons_self _ _

/-- Counterexample to claim C1 as stated: `waitForAll()` awaits `Promise.all`
over the raw unit promises (line 217), and the `.catch` swallowing rejections
(line 159) lives only on the derived registry-cleanup chain - so with one
tracked unit whose flush handler rejected with `7`, the `waitForAll` promise
itself rejects with `7` instead of resolving after settlement. -/
theorem C1_counterexample :
    (flush errHandler 5 [itemA] (fun _ => false)).outcome = Except.error 7 ∧
    waitForAllOutcome none (fun _ => (flush errHandler 5 [itemA] (fun _ => false)).outcome)
      sampleRegistryState 5 = Except.error 7 := by
  exact ⟨rfl, rfl⟩

/-- Claim C1, corrected: `waitForAll()`'s promise fulfils exactly when the
flush promise of every unit tracked at snapshot time (the force-flushed one
included) fulfilled; when it rejects, the propagated error is the rejection of
one of those tracked units' flush promises - in particular a tracked flush
handler rejection does propagate out of `waitForAll`. -/
theorem C1_waitForAll_ok_iff {T R E : Type} (M : Option Int)
    (outcomes : Nat → Except E (List (String × R))) (st : BatcherState T) (now : Int) :
    (waitForAllOutcome M outcomes st now = .ok () ↔
      ∀ u ∈ (_flushStep M now { st with batchTimeout := none }).pendingFlushes,
        ∃ rs, outcomes u.uid = .ok rs) ∧
    (∀ e : E, waitForAllOutcome M outcomes st now = .error e →
      ∃ u ∈ (_flushStep M now { st with batchTimeout := none }).pendingFlushes,
        outcomes u.uid = .error e) := by
  constructor
  · rw [waitForAllOutcome, promiseAllOutcome_ok_iff]
    constructor
    · intro h u hu
      exact h (outcomes u.uid) (List.mem_map.mpr ⟨u, hu, rfl⟩)
    · intro h o ho
      rcases List.mem_map.mp ho with ⟨u, hu, rfl⟩
      exact h u hu
  · intro e he
    rw [waitForAllOutcome] at he
    have hmem := promiseAllOutcome_error _ e he
    rcases List.mem_map.mp hmem with ⟨u, hu, huo⟩
    exact ⟨u, hu, huo⟩

/-- Witness for the corrected C1 at a concrete input: when the only tracked
unit's flush fulfilled, `waitForAll` fulfils. -/
theorem C1_witness :
    waitForAllOutcome none (fun _ => (Except.ok [] : Except Nat (List (String × Nat))))
      sampleRegistryState 5 = Except.ok () := by
  exact (C1_waitForAll_ok_iff none
    (fun _ => (Except.ok [] : Except Nat (List (String × Nat))))
    sampleRegistryState 5).1.mpr (fun u hu => ⟨[], rfl⟩)

end NodeBatcher
